import Mathlib

/-!
Shallow embedding of the SkinDelta/go-cs2-cdn pipeline (Go), for checking its
natural-language specification.

The repository runs on GOOS=linux (`runs-on: ubuntu-latest` in the workflow and
linux-x64 tool assets in `internal/dependencies/collect_tools.go`), so the
`path/filepath` functions are embedded with the Unix rules: the separator is
`/`, `filepath.ToSlash` is the identity, and a backslash is an ordinary
character.

Strings are modelled at the rune level (`List Char`); the package operations
used by the code (`strings.Fields`, `strings.TrimSpace`, `strings.HasPrefix`,
`strings.TrimPrefix`, `strconv.Atoi`, `filepath.Clean`, `filepath.Join`,
`fmt.Sprintf "%03d"`) are embedded below. Go iterates maps in unspecified
order; the sets `fnumberSet` and `vpkSet` are embedded as first-insertion-order
duplicate-free lists, a fixed representative of the unordered collection, and
all theorems about the results are order-insensitive (membership, length,
`Nodup`).
-/

/-- `unicode.IsSpace`, restricted to the Latin-1 range (the listing data is
ASCII): space, tab, newline, vertical tab, form feed, carriage return, NEL,
and no-break space. -/
def goIsSpace (c : Char) : Bool :=
  c = ' ' || c = '\t' || c = '\n' || c = '\x0b' || c = '\x0c' || c = '\r' ||
  c = '\u0085' || c = ' '

/-- Split a character list at every character satisfying `p`, keeping empty
pieces (the rune-level core shared by `strings.Fields` and `filepath.Clean`'s
component scan). -/
def splitP (p : Char → Bool) : List Char → List (List Char)
  | [] => [[]]
  | c :: rest =>
    if p c then [] :: splitP p rest
    else
      match splitP p rest with
      | [] => [[c]]
      | f :: r => (c :: f) :: r

/-- `strings.TrimSpace`: drop leading and trailing whitespace. -/
def goTrimSpace (s : String) : String :=
  String.mk (((s.data.dropWhile goIsSpace).reverse.dropWhile goIsSpace).reverse)

/-- `strings.Fields`: the maximal runs of non-whitespace characters. -/
def goFields (s : String) : List String :=
  ((splitP goIsSpace s.data).filter (fun f => f ≠ [])).map String.mk

/-- `strings.HasPrefix pre s` (byte-prefix test; equivalent to the rune-prefix
test because both strings are valid UTF-8). -/
def goHasPre (s pre : String) : Bool :=
  List.isPrefixOf pre.data s.data

/-- `strings.TrimPrefix`: remove `pre` from the front of `s` when present,
otherwise return `s` unchanged. -/
def goTrimPre (s pre : String) : String :=
  if goHasPre s pre then String.mk (s.data.drop pre.data.length) else s

/-- The value of a run of decimal digits. -/
def digitsToNat (l : List Char) : Nat :=
  l.foldl (fun n c => n * 10 + (c.toNat - '0'.toNat)) 0

/-- `strconv.Atoi`: optional sign, a nonempty run of decimal digits, and the
value must fit in a 64-bit int; `none` models a non-nil error. -/
def goAtoi (s : String) : Option Int :=
  let (neg, ds) :=
    match s.data with
    | '-' :: rest => (true, rest)
    | '+' :: rest => (false, rest)
    | l => (false, l)
  if ds = [] || !ds.all Char.isDigit then none
  else
    let v : Int := if neg then -(digitsToNat ds : Int) else (digitsToNat ds : Int)
    if v < -(2 ^ 63) || 2 ^ 63 - 1 < v then none else some v

/-- One step of `filepath.Clean`'s element processing (Unix rules): `..` pops a
previous real element, is dropped at the root, and is kept when everything so
far is `..` in a relative path; any other element is pushed. The accumulator
holds the output elements in reverse. -/
def cleanStep (rooted : Bool) (acc : List (List Char)) (comp : List Char) :
    List (List Char) :=
  if comp = ['.', '.'] then
    match acc with
    | [] => if rooted then [] else [comp]
    | top :: rest => if top = ['.', '.'] then comp :: acc else rest
  else comp :: acc

/-- `filepath.Clean` on GOOS=linux (rune-level): empty input becomes `.`;
otherwise split on `/`, drop empty and `.` elements, resolve `..` with
`cleanStep`, and rejoin, restoring a leading `/` for rooted paths; an empty
result is `/` when rooted and `.` otherwise. -/
def pathCleanL (l : List Char) : List Char :=
  if l = [] then ['.']
  else
    let rooted := l.head? = some '/'
    let comps := (splitP (fun c => c = '/') l).filter
      (fun c => c ≠ [] && c ≠ ['.'])
    let out := (comps.foldl (cleanStep rooted) []).reverse
    if out = [] then (if rooted then ['/'] else ['.'])
    else (if rooted then ['/'] else []) ++ List.intercalate ['/'] out

/-- `filepath.Clean` on strings. -/
def pathClean (s : String) : String :=
  String.mk (pathCleanL s.data)

/-- `filepath.ToSlash` on GOOS=linux: the separator already is `/`, so the
path is returned unchanged (backslashes are NOT translated). -/
def toSlash (s : String) : String := s

/-- `filepath.Join` on GOOS=linux for two elements: join the elements from the
first nonempty one with `/` and clean; all-empty input gives the empty
string. -/
def filepathJoin (a b : String) : String :=
  if a ≠ "" then pathClean (a ++ "/" ++ b)
  else if b ≠ "" then pathClean b
  else ""

/-- Insertion into a Go map-as-set, represented as a duplicate-free list in
first-insertion order. -/
def insertUnique {α : Type} [DecidableEq α] (acc : List α) (v : α) : List α :=
  if v ∈ acc then acc else acc ++ [v]

/-- The prefix test of `ParseVPKDir` (parser.go:112-116): clean and
slash-normalize both the entry path and the required prefix, then a raw
string-prefix comparison. -/
def prefixMatch (requiredPre filePath : String) : Bool :=
  let cleanPath := toSlash (pathClean filePath)
  let normalizedPre := toSlash (pathClean requiredPre)
  goHasPre cleanPath normalizedPre

/-- The fnumber-extraction loop of `ParseVPKDir` (parser.go:122-134), run over
`fields[1:]`: scan for the first field starting with `fnumber=`; on a parse
failure the loop breaks with `fnumber` still `0` (the warning is only logged),
on success it breaks with the parsed value. -/
def extractFNumber : List String → Int
  | [] => 0
  | f :: rest =>
    if goHasPre f "fnumber=" then
      match goAtoi (goTrimPre f "fnumber=") with
      | none => 0
      | some v => v
    else extractFNumber rest

/-- The body of `ParseVPKDir`'s scan loop (parser.go:92-141) for one line:
skip separator (`---`-prefixed) and blank lines, skip lines with fewer than 5
whitespace-delimited fields, filter by the normalized path prefix on field 0,
and insert the extracted fnumber into the set when it is nonzero. -/
def processLine (requiredPre : String) (acc : List Int) (line : String) :
    List Int :=
  if goHasPre line "---" || goTrimSpace line = "" then acc
  else
    let fields := goFields line
    if fields.length < 5 then acc
    else
      match fields with
      | [] => acc
      | filePath :: rest =>
        if !prefixMatch requiredPre filePath then acc
        else
          let fnumber := extractFNumber rest
          if fnumber ≠ 0 then insertUnique acc fnumber else acc

/-- `ParseVPKDir` (parser.go:81-156), with the file abstracted as its list of
lines (the scanner's line splitting and I/O errors are outside the model):
fold the per-line processing over the listing and return the collected
fnumbers. -/
def ParseVPKDir (lines : List String) (requiredPre : String) : List Int :=
  lines.foldl (processLine requiredPre) []

/-- `fmt.Sprintf "%03d"`: minimum width 3, zero padded after the sign, the
sign counting toward the width. -/
def sprintf03d (n : Int) : String :=
  let sign := if n < 0 then "-" else ""
  let digits := toString n.natAbs
  let total := sign.length + digits.length
  let pad := if total < 3 then String.mk (List.replicate (3 - total) '0') else ""
  sign ++ pad ++ digits

/-- The segment filename built for one fnumber by `MapFNumberToVPK`
(parser.go:163-164): `pak01_%03d.vpk` joined with the base directory. -/
def vpkPathOf (baseDir : String) (fnum : Int) : String :=
  filepathJoin baseDir ("pak01_" ++ sprintf03d fnum ++ ".vpk")

/-- `MapFNumberToVPK` (parser.go:159-175): build the segment path for every
fnumber and collect the paths into a set. -/
def MapFNumberToVPK (fnumbers : List Int) (baseDir : String) : List String :=
  fnumbers.foldl (fun acc fnum => insertUnique acc (vpkPathOf baseDir fnum)) []

/-! ### Command executor (internal/cmdrunner)

`DefaultRunner.Run` executes a process and post-processes the outcome. The
process execution itself (`exec.CommandContext` + `cmd.Run`) is abstracted as
an `ExecOutcome`: the captured output buffers at the moment `cmd.Run`
returns, the error it returned (`none` on success), and the state of the
context's `Err()` at the check on line 54 of the cmdrunner file. The embedded
function is the result-construction logic of lines 40-72. -/

/-- The value of `ctx.Err()` when `DefaultRunner.Run` inspects it. -/
inductive CtxErr
  | noErr
  | deadlineExceeded
  | canceled
deriving DecidableEq

/-- Abstraction of one `cmd.Run()` execution: captured stdout/stderr text and
the returned error message (`none` when the command succeeded). -/
structure ExecOutcome where
  stdout : String
  stderr : String
  execErr : Option String
deriving DecidableEq

/-- The two wrapped error shapes `DefaultRunner.Run` can return: the
deadline-exceeded case and the general execution failure. -/
inductive CmdError
  | timedOut (msg : String)
  | execFailed (msg : String)
deriving DecidableEq

/-- `CommandResult` (cmdrunner lines 15-19). -/
structure CommandResult where
  Stdout : String
  Stderr : String
  Error : Option CmdError
deriving DecidableEq

/-- `DefaultRunner.Run` (cmdrunner lines 31-73), given the abstracted
execution outcome: on error, wrap it as a timeout when the context's error is
`DeadlineExceeded` and as a general execution failure otherwise, always
carrying the captured stdout and stderr; on success return the output with a
nil error. -/
def DefaultRunner.Run (ctxErr : CtxErr) (o : ExecOutcome) : CommandResult :=
  match o.execErr with
  | some e =>
    if ctxErr = CtxErr.deadlineExceeded then
      ⟨o.stdout, o.stderr, some (CmdError.timedOut ("command timed out: " ++ e))⟩
    else
      ⟨o.stdout, o.stderr,
        some (CmdError.execFailed ("command execution failed: " ++ e))⟩
  | none => ⟨o.stdout, o.stderr, none⟩

/-! ### Pipeline invocations and their deadlines

The pipeline makes five external invocations, through three different
runners. `RunCommand` (cmdrunner lines 76-83) always wraps the call in a
60-second context deadline; `PipeOutput` (cmdrunner lines 86-124) and the raw
`exec.Command` call in `generateVPKDirectory` (parser.go:64-72) use no
deadline. -/

/-- The three ways the pipeline launches an external process. -/
inductive RunnerKind
  | runCommand
  | pipeOutput
  | rawExec
deriving DecidableEq

/-- The deadline each runner imposes, in seconds: `RunCommand` builds a
60-second timeout context; the other two launch without a deadline. -/
def RunnerKind.deadlineSeconds : RunnerKind → Option Nat
  | RunnerKind.runCommand => some 60
  | RunnerKind.pipeOutput => none
  | RunnerKind.rawExec => none

/-- One external invocation of the pipeline: which tool and which runner. -/
structure Invocation where
  tool : String
  runner : RunnerKind
deriving DecidableEq

/-- The pipeline's external invocations in program order (main.go:34,
main.go:115, parser.go:64 via `GenerateVPKList`, main.go:143, main.go:159). -/
def pipelineInvocations : List Invocation :=
  [⟨"DepotDownloader -manifest-only", RunnerKind.runCommand⟩,
   ⟨"DepotDownloader -filelist (vpk dir)", RunnerKind.runCommand⟩,
   ⟨"Source2Viewer-CLI --vpk_dir", RunnerKind.rawExec⟩,
   ⟨"DepotDownloader -filelist (segments)", RunnerKind.pipeOutput⟩,
   ⟨"Source2Viewer-CLI extract", RunnerKind.pipeOutput⟩]

/-! ### Orchestrator identity gate (cmd/main.go)

`main` is linear; every failure calls `log.Fatalf` and aborts the run. The
model below follows the happy path (no fatal errors) and records which stages
run as a list of labels, as a function of the durable inputs that decide the
gate: the stored identity file (absent or its content) and the newly observed
manifest identity. -/

/-- The stages of `main`, in program order. -/
inductive Stage
  | checkDeps
  | fetchManifest
  | readIdentity
  | writeIdentity
  | fetchVpkDir
  | resolveSegments
  | downloadSegments
  | extractFiles
  | renameFiles
  | publishCDN
deriving DecidableEq

/-- The tracked identity `main` computes (main.go:68-75): empty when the file
is absent, else the file content with surrounding whitespace trimmed. -/
def trackedIDOf (stored : Option String) : String :=
  match stored with
  | none => ""
  | some data => goTrimSpace data

/-- The identity gate (main.go:78): bail out when the tracked ID equals the
new manifest ID and is non-empty. -/
def identityGate (stored : Option String) (newManifestID : String) : Bool :=
  trackedIDOf stored = newManifestID && trackedIDOf stored ≠ ""

/-- The stages a run of `main` executes (main.go:25-177, happy path): up to
the gate always; past it, the identity write (main.go:89) and the remaining
pipeline only when the gate does not fire. -/
def mainStages (stored : Option String) (newManifestID : String) : List Stage :=
  [Stage.checkDeps, Stage.fetchManifest, Stage.readIdentity] ++
    (if identityGate stored newManifestID then []
     else
       [Stage.writeIdentity, Stage.fetchVpkDir, Stage.resolveSegments,
        Stage.downloadSegments, Stage.extractFiles, Stage.renameFiles,
        Stage.publishCDN])

/-- The content of `manifest_id.txt` after the run: unchanged when the gate
fires, overwritten with the new ID when the run proceeds past the gate
(main.go:89). -/
def finalIdentityFile (stored : Option String) (newManifestID : String) :
    Option String :=
  if identityGate stored newManifestID then stored else some newManifestID

/-! ### Helper lemmas -/

/-- A line that is `---`-prefixed, whitespace-only, or has fewer than 5
fields leaves the fnumber set unchanged. -/
theorem processLine_skip (reqPre : String) (acc : List Int) (line : String)
    (h : goHasPre line "---" = true ∨ goTrimSpace line = "" ∨
      (goFields line).length < 5) :
    processLine reqPre acc line = acc := by
  rcases h with h | h | h
  · simp [processLine, h]
  · simp [processLine, h]
  · unfold processLine
    split
    · rfl
    · simp [h]

theorem mem_insertUnique {α : Type} [DecidableEq α] (acc : List α) (v x : α) :
    x ∈ insertUnique acc v ↔ x ∈ acc ∨ x = v := by
  by_cases hv : v ∈ acc
  · simp only [insertUnique, if_pos hv]
    constructor
    · exact Or.inl
    · rintro (hx | rfl)
      · exact hx
      · exact hv
  · simp [insertUnique, if_neg hv]

theorem nodup_insertUnique {α : Type} [DecidableEq α] (acc : List α) (v : α)
    (h : acc.Nodup) : (insertUnique acc v).Nodup := by
  by_cases hv : v ∈ acc
  · simpa [insertUnique, if_pos hv] using h
  · simp [insertUnique, if_neg hv, List.nodup_append, h, hv]

theorem splitP_ne_nil (p : Char → Bool) (l : List Char) : splitP p l ≠ [] := by
  induction l with
  | nil => simp [splitP]
  | cons c rest ih =>
    unfold splitP
    split
    · simp
    · split
      · simp
      · simp

/-- Appending a separator character adds one trailing empty piece. -/
theorem splitP_append_sep (p : Char → Bool) (c : Char) (hc : p c = true)
    (l : List Char) : splitP p (l ++ [c]) = splitP p l ++ [[]] := by
  induction l with
  | nil => simp [splitP, hc]
  | cons d rest ih =>
    by_cases hd : p d = true
    · simp [splitP, hd, ih]
    · simp only [List.cons_append, splitP, hd, Bool.false_eq_true, if_false, ih]
      cases h : splitP p rest with
      | nil => exact absurd h (splitP_ne_nil p rest)
      | cons f r => simp [ih, h]

/-- Cleaning ignores a trailing slash (Unix `filepath.Clean` on a nonempty
path). -/
theorem pathCleanL_append_slash (l : List Char) (hl : l ≠ []) :
    pathCleanL (l ++ ['/']) = pathCleanL l := by
  have h1 : l ++ ['/'] ≠ [] := by simp
  have hhead : (l ++ ['/']).head? = l.head? := by
    cases l with
    | nil => exact absurd rfl hl
    | cons a t => simp
  have hsplit : splitP (fun c => c = '/') (l ++ ['/']) =
      splitP (fun c => c = '/') l ++ [[]] :=
    splitP_append_sep _ '/' (by simp) l
  unfold pathCleanL
  rw [if_neg h1, if_neg hl, hhead, hsplit, List.filter_append]
  simp

theorem pathClean_append_slash (s : String) (hs : s ≠ "") :
    pathClean (s ++ "/") = pathClean s := by
  have hdata : s.data ≠ [] := by
    intro h
    exact hs (String.ext h)
  unfold pathClean
  rw [String.data_append]
  exact congrArg String.mk (pathCleanL_append_slash s.data hdata)

/-- Every line either leaves the set unchanged or inserts one nonzero
fnumber. -/
theorem processLine_result (reqPre : String) (acc : List Int) (line : String) :
    processLine reqPre acc line = acc ∨
      ∃ v : Int, v ≠ 0 ∧ processLine reqPre acc line = insertUnique acc v := by
  simp only [processLine]
  split
  · exact Or.inl rfl
  · split
    · exact Or.inl rfl
    · split
      · exact Or.inl rfl
      · split
        · exact Or.inl rfl
        · split
          · next hne => exact Or.inr ⟨_, hne, rfl⟩
          · exact Or.inl rfl

/-- Invariant of the scan loop: the collected fnumbers stay duplicate-free
and nonzero. -/
theorem parse_inv (reqPre : String) (lines : List String) :
    ∀ acc : List Int, acc.Nodup → (∀ x ∈ acc, x ≠ 0) →
      (lines.foldl (processLine reqPre) acc).Nodup ∧
        ∀ x ∈ lines.foldl (processLine reqPre) acc, x ≠ 0 := by
  induction lines with
  | nil => exact fun acc h1 h2 => ⟨h1, h2⟩
  | cons line rest ih =>
    intro acc h1 h2
    rw [List.foldl_cons]
    rcases processLine_result reqPre acc line with h | ⟨v, hv, h⟩
    · rw [h]
      exact ih acc h1 h2
    · rw [h]
      refine ih (insertUnique acc v) (nodup_insertUnique acc v h1) ?_
      intro x hx
      rcases (mem_insertUnique acc v x).1 hx with hx' | rfl
      · exact h2 x hx'
      · exact hv

theorem nodup_foldl_insertUnique {α : Type} [DecidableEq α] (l : List α) :
    ∀ acc : List α, acc.Nodup → (l.foldl insertUnique acc).Nodup := by
  induction l with
  | nil => exact fun acc h => h
  | cons a rest ih =>
    intro acc h
    rw [List.foldl_cons]
    exact ih (insertUnique acc a) (nodup_insertUnique acc a h)

theorem mem_foldl_insertUnique {α : Type} [DecidableEq α] (l : List α) :
    ∀ (acc : List α) (x : α),
      x ∈ l.foldl insertUnique acc ↔ x ∈ acc ∨ x ∈ l := by
  induction l with
  | nil => simp
  | cons a rest ih =>
    intro acc x
    rw [List.foldl_cons, ih (insertUnique acc a) x, mem_insertUnique]
    simp only [List.mem_cons]
    tauto

/-- The fnumber-extraction loop ignores everything after the first
`fnumber=` field: the result is that field's parsed value, or `0` when its
value does not parse. -/
theorem extractFNumber_first_match (l1 l2 : List String) (f : String)
    (h1 : ∀ g ∈ l1, goHasPre g "fnumber=" = false)
    (h2 : goHasPre f "fnumber=" = true) :
    extractFNumber (l1 ++ f :: l2) = (goAtoi (goTrimPre f "fnumber=")).getD 0 := by
  induction l1 with
  | nil =>
    cases hA : goAtoi (goTrimPre f "fnumber=") with
    | none => simp [extractFNumber, h2, hA]
    | some v => simp [extractFNumber, h2, hA]
  | cons g rest ih =>
    have hg := h1 g (List.mem_cons_self g rest)
    simp only [List.cons_append, extractFNumber, hg, Bool.false_eq_true,
      if_false]
    exact ih fun x hx => h1 x (List.mem_cons_of_mem g hx)

/-! ### Claim theorems -/

/-- C1: a line that is blank or whitespace-only, begins with `---`, or
splits into fewer than 5 whitespace-delimited fields contributes nothing to
`ParseVPKDir`'s result, regardless of the line's other content or its
position in the listing. -/
theorem C1_skipped_lines_contribute_nothing (pre post : List String)
    (reqPre line : String)
    (h : goHasPre line "---" = true ∨ goTrimSpace line = "" ∨
      (goFields line).length < 5) :
    ParseVPKDir (pre ++ line :: post) reqPre = ParseVPKDir (pre ++ post) reqPre := by
  unfold ParseVPKDir
  rw [List.foldl_append, List.foldl_append, List.foldl_cons,
    processLine_skip reqPre _ line h]

/-- Witness for C1 at a concrete listing: a separator line, a whitespace-only
line and a 4-field line each drop out. -/
theorem C1_witness :
    ((goHasPre "--- summary ---" "---" = true ∨
        goTrimSpace "--- summary ---" = "" ∨
        (goFields "--- summary ---").length < 5) ∧
      ParseVPKDir
          ["a/b/x.vtex f1 f2 f3 fnumber=44", "--- summary ---",
            "a/b/y.vtex fnumber=7"] "a/b" =
        ParseVPKDir
          ["a/b/x.vtex f1 f2 f3 fnumber=44", "a/b/y.vtex fnumber=7"] "a/b") ∧
      ParseVPKDir
          ["a/b/x.vtex f1 f2 f3 fnumber=44", "a/b/y.vtex fnumber=7"] "a/b" =
        ParseVPKDir ["a/b/x.vtex f1 f2 f3 fnumber=44"] "a/b" :=
  ⟨⟨Or.inl (by decide),
      C1_skipped_lines_contribute_nothing
        ["a/b/x.vtex f1 f2 f3 fnumber=44"] ["a/b/y.vtex fnumber=7"] "a/b"
        "--- summary ---" (Or.inl (by decide))⟩,
    C1_skipped_lines_contribute_nothing
      ["a/b/x.vtex f1 f2 f3 fnumber=44"] [] "a/b"
      "a/b/y.vtex fnumber=7" (Or.inr (Or.inr (by decide)))⟩

/-- C2 (counterexample): the claim as stated is false on this (GOOS=linux)
code: with entry path `a/b/x.vtex`, the filter prefix `a/b` matches but the
same prefix with its slash replaced by a backslash, `a\b`, does not —
`filepath.ToSlash` is the identity on Linux, so slash direction changes the
decision. -/
theorem C2_counterexample :
    prefixMatch "a/b" "a/b/x.vtex" = true ∧
      prefixMatch "a\\b" "a/b/x.vtex" = false ∧
      prefixMatch "a/b" "a\\b\\x.vtex" = false := by decide

/-- C2 (amended): the prefix-match decision is unchanged when a trailing
slash is added to (equivalently, removed from) the nonempty filter prefix or
the nonempty entry path; slash-direction invariance does not hold. -/
theorem C2_trailing_slash_invariance (reqPre fp : String) (h1 : reqPre ≠ "")
    (h2 : fp ≠ "") :
    prefixMatch (reqPre ++ "/") fp = prefixMatch reqPre fp ∧
      prefixMatch reqPre (fp ++ "/") = prefixMatch reqPre fp := by
  unfold prefixMatch toSlash
  rw [pathClean_append_slash reqPre h1, pathClean_append_slash fp h2]
  exact ⟨rfl, rfl⟩

/-- Witness for C2 (amended) at `a/b` / `a/b/x.vtex`. -/
theorem C2_witness :
    prefixMatch "a/b/" "a/b/x.vtex" = prefixMatch "a/b" "a/b/x.vtex" ∧
      prefixMatch "a/b" "a/b/x.vtex/" = prefixMatch "a/b" "a/b/x.vtex" :=
  C2_trailing_slash_invariance "a/b" "a/b/x.vtex" (by decide) (by decide)

/-- C3: the concrete three-line listing with filter prefix `a/b` resolves to
exactly the one segment path for fnumber 44, `base/pak01_044.vpk`, and to no
path for fnumber 7. -/
theorem C3_round_trip :
    MapFNumberToVPK
        (ParseVPKDir
          ["a/b/img1.vtex f1 f2 f3 fnumber=44",
            "a/b/img2.vtex f1 f2 f3 fnumber=44",
            "c/d/x.vtex f1 f2 f3 fnumber=7"] "a/b")
        "base" = ["base/pak01_044.vpk"] ∧
      "base/pak01_007.vpk" ∉
        MapFNumberToVPK
          (ParseVPKDir
            ["a/b/img1.vtex f1 f2 f3 fnumber=44",
              "a/b/img2.vtex f1 f2 f3 fnumber=44",
              "c/d/x.vtex f1 f2 f3 fnumber=7"] "a/b")
          "base" := by decide

/-- C4: on a matching line only the first `fnumber=` field counts: the
extraction result is that field's parsed value, and `0` (the no-contribution
sentinel, see `processLine`) when its value does not parse — later fields,
including well-formed `fnumber=<int>` tokens, are ignored either way. -/
theorem C4_first_fnumber_field_wins (l1 l2 : List String) (f : String)
    (h1 : ∀ g ∈ l1, goHasPre g "fnumber=" = false)
    (h2 : goHasPre f "fnumber=" = true) :
    extractFNumber (l1 ++ f :: l2) = (goAtoi (goTrimPre f "fnumber=")).getD 0 :=
  extractFNumber_first_match l1 l2 f h1 h2

/-- Witness for C4: `fnumber=abc` yields no fnumber even though `fnumber=5`
follows on the same line. -/
theorem C4_witness :
    goHasPre "fnumber=abc" "fnumber=" = true ∧
      extractFNumber (["size=3"] ++ "fnumber=abc" :: ["fnumber=5"]) =
        (goAtoi (goTrimPre "fnumber=abc" "fnumber=")).getD 0 ∧
      extractFNumber (["size=3"] ++ "fnumber=abc" :: ["fnumber=5"]) = 0 :=
  ⟨by decide,
    C4_first_fnumber_field_wins ["size=3"] ["fnumber=5"] "fnumber=abc"
      (by decide) (by decide),
    by decide⟩

/-- C5: for every listing and prefix the returned list is duplicate-free and
never contains `0`; concretely, a matching entry carrying `fnumber=0`
contributes nothing. -/
theorem C5_nodup_nonzero (lines : List String) (reqPre : String) :
    (ParseVPKDir lines reqPre).Nodup ∧
      (0 : Int) ∉ ParseVPKDir lines reqPre ∧
      ParseVPKDir ["a/b/x.vtex f1 f2 f3 fnumber=0"] "a/b" = [] := by
  have h := parse_inv reqPre lines [] (List.nodup_nil) (by simp)
  exact ⟨h.1, fun hx => h.2 0 hx rfl, by decide⟩

/-- C6: `MapFNumberToVPK` emits, for each collected fnumber, the path
`baseDir ⧸ pak01_<%03d>.vpk` (see `vpkPathOf` and `sprintf03d`), and its
result is duplicate-free with exactly one path per distinct produced path:
its length is the number of distinct segment paths the input fnumbers map
to. -/
theorem C6_map_dedup (fnumbers : List Int) (baseDir : String) :
    (MapFNumberToVPK fnumbers baseDir).Nodup ∧
      (∀ p, p ∈ MapFNumberToVPK fnumbers baseDir ↔
        ∃ f ∈ fnumbers, p = vpkPathOf baseDir f) ∧
      (MapFNumberToVPK fnumbers baseDir).length =
        ((fnumbers.map (vpkPathOf baseDir)).dedup).length := by
  have hfold : MapFNumberToVPK fnumbers baseDir =
      (fnumbers.map (vpkPathOf baseDir)).foldl insertUnique [] := by
    unfold MapFNumberToVPK
    rw [List.foldl_map]
  have hnodup : (MapFNumberToVPK fnumbers baseDir).Nodup := by
    rw [hfold]
    exact nodup_foldl_insertUnique _ [] List.nodup_nil
  have hmem : ∀ p, p ∈ MapFNumberToVPK fnumbers baseDir ↔
      p ∈ fnumbers.map (vpkPathOf baseDir) := by
    intro p
    rw [hfold, mem_foldl_insertUnique]
    simp
  refine ⟨hnodup, ?_, ?_⟩
  · intro p
    rw [hmem p, List.mem_map]
    constructor
    · rintro ⟨f, hf, rfl⟩
      exact ⟨f, hf, rfl⟩
    · rintro ⟨f, hf, rfl⟩
      exact ⟨f, hf, rfl⟩
  · have hperm : List.Perm (MapFNumberToVPK fnumbers baseDir)
        ((fnumbers.map (vpkPathOf baseDir)).dedup) := by
      refine (List.perm_ext_iff_of_nodup hnodup (List.nodup_dedup _)).2 ?_
      intro p
      rw [hmem p, List.mem_dedup]
    exact hperm.length_eq

/-- C7: `DefaultRunner.Run` always carries the captured stdout and stderr
into the result; on a failed execution its error is the timeout wrapper
exactly when the context reports a deadline excess and the general execution
failure wrapper otherwise, and on success the error is nil. -/
theorem C7_run_result (ctxErr : CtxErr) (o : ExecOutcome) :
    (DefaultRunner.Run ctxErr o).Stdout = o.stdout ∧
      (DefaultRunner.Run ctxErr o).Stderr = o.stderr ∧
      (DefaultRunner.Run ctxErr o).Error =
        (match o.execErr with
          | none => none
          | some e =>
            some
              (if ctxErr = CtxErr.deadlineExceeded then
                CmdError.timedOut ("command timed out: " ++ e)
              else
                CmdError.execFailed ("command execution failed: " ++ e))) := by
  cases o with
  | mk so se ee =>
    cases ee with
    | none => exact ⟨rfl, rfl, rfl⟩
    | some e =>
      by_cases h : ctxErr = CtxErr.deadlineExceeded <;>
        simp [DefaultRunner.Run, h]

/-- C8: when the trimmed stored identity is nonempty and equals the newly
observed manifest identity, the run stops right after the comparison — the
identity file is not written (and keeps its prior content) and no
vpk-dir fetch, segment resolution, segment download or extraction stage
runs; the identity write happens exactly on the runs that pass the gate. -/
theorem C8_identity_gate (stored : Option String) (newManifestID : String) :
    (identityGate stored newManifestID = true ↔
        trackedIDOf stored = newManifestID ∧ trackedIDOf stored ≠ "") ∧
      (identityGate stored newManifestID = true →
        mainStages stored newManifestID =
            [Stage.checkDeps, Stage.fetchManifest, Stage.readIdentity] ∧
          finalIdentityFile stored newManifestID = stored) ∧
      (Stage.writeIdentity ∈ mainStages stored newManifestID ↔
        identityGate stored newManifestID = false) ∧
      (Stage.fetchVpkDir ∈ mainStages stored newManifestID ↔
        identityGate stored newManifestID = false) ∧
      (Stage.resolveSegments ∈ mainStages stored newManifestID ↔
        identityGate stored newManifestID = false) ∧
      (Stage.downloadSegments ∈ mainStages stored newManifestID ↔
        identityGate stored newManifestID = false) ∧
      (Stage.extractFiles ∈ mainStages stored newManifestID ↔
        identityGate stored newManifestID = false) := by
  have hgate : identityGate stored newManifestID = true ↔
      trackedIDOf stored = newManifestID ∧ trackedIDOf stored ≠ "" := by
    simp [identityGate]
  refine ⟨hgate, ?_, ?_, ?_, ?_, ?_, ?_⟩ <;>
    by_cases hg : identityGate stored newManifestID = true <;>
      simp [mainStages, finalIdentityFile, hg, Bool.not_eq_true] at *

/-- Witness for C8: with stored content `" 123 "` (trimming to `"123"`) and
new identity `"123"`, the run ends at the gate and the file keeps its old
content. -/
theorem C8_witness :
    mainStages (some " 123 ") "123" =
        [Stage.checkDeps, Stage.fetchManifest, Stage.readIdentity] ∧
      finalIdentityFile (some " 123 ") "123" = some " 123 " :=
  (C8_identity_gate (some " 123 ") "123").2.1 (by decide)

/-- C9 (counterexample): the claim as stated is false: the deadlines of the
five external invocations, in program order, are not `60s, none, none, none,
none` — the second invocation (the DepotDownloader vpk-dir filelist fetch,
main.go:115, also made through `RunCommand`) runs under the 60-second
deadline too. -/
theorem C9_counterexample :
    ¬ (pipelineInvocations.map (fun i => RunnerKind.deadlineSeconds i.runner) =
        some 60 :: List.replicate 4 none) := by decide

/-- C9 (amended): exactly the two `RunCommand` invocations — the
manifest-only fetch and the vpk-dir filelist fetch — run under a 60-second
deadline; the remaining three external invocations run without any
deadline. -/
theorem C9_deadlines :
    pipelineInvocations.map (fun i => i.runner) =
        [RunnerKind.runCommand, RunnerKind.runCommand, RunnerKind.rawExec,
          RunnerKind.pipeOutput, RunnerKind.pipeOutput] ∧
      pipelineInvocations.map (fun i => RunnerKind.deadlineSeconds i.runner) =
        [some 60, some 60, none, none, none] := by decide

/-- C10: the filter is a raw string-prefix test on cleaned paths, not a
path-component test: with filter prefix `a/b`, the entry `a/bc/x.vtex` is
matched (and its fnumber collected) even though `a/b` is not a
whole-directory ancestor — the cleaned path neither continues `a/b` with a
slash nor equals it. -/
theorem C10_raw_string_match :
    ParseVPKDir ["a/bc/x.vtex f1 f2 f3 fnumber=9"] "a/b" = [9] ∧
      prefixMatch "a/b" "a/bc/x.vtex" = true ∧
      goHasPre (toSlash (pathClean "a/bc/x.vtex")) "a/b/" = false ∧
      toSlash (pathClean "a/bc/x.vtex") ≠ "a/b" := by decide

example : goFields "  a  b c " = ["a", "b", "c"] := by decide
example : pathClean "a/b/" = "a/b" := by decide
example : pathClean "a//./b/../c" = "a/c" := by decide
example : goAtoi "44" = some 44 := by decide
example : goAtoi "-7" = some (-7) := by decide
example : goAtoi "abc" = none := by decide
example : sprintf03d 44 = "044" := by decide
example : sprintf03d (-5) = "-05" := by decide
example : ParseVPKDir ["a/b/img1.vtex f1 f2 f3 fnumber=44"] "a/b" = [44] := by
  decide
example : MapFNumberToVPK [44] "base" = ["base/pak01_044.vpk"] := by decide
